import Mathlib

/-!
# Verification of the genesyscloud provider's datatable/station handlers

Shallow embedding of `src/genesyscloud/resource_genesyscloud_architect_datatable.go`
and `src/genesyscloud/data_source_genesyscloud_station.go`.

Go maps (`map[string]Datatableproperty`) are embedded as association lists with
the Go assignment semantics (`mapInsert`); a concrete association list also
stands for one possible (unspecified) iteration order of the map, and theorems
that depend on iteration order quantify over permutations of the list.
Machine integers (`int`) are embedded as `Int`; `float64` parsing results are
embedded as exact rationals (IEEE-754 rounding and overflow are abstracted,
see `goParseFloat`).
-/

set_option autoImplicit false
set_option linter.unusedVariables false

deriving instance DecidableEq for Except

namespace GenesysCloud

/-! ## Values stored in `interface{}` fields

`buildSdkDatatableProperties` stores a parsed default value of type
`bool`, `string`, `int` or `float64` in the `Default *interface{}` field.
-/

/-- Result of Go `strconv.ParseFloat(s, 64)`: a finite value (embedded as the
exact decimal rational, IEEE-754 rounding/overflow abstracted), an infinity
(`neg` gives the sign) or a NaN. -/
inductive GoNum where
  | finite : ℚ → GoNum
  | inf : Bool → GoNum
  | nan : GoNum
deriving DecidableEq, Repr

/-- A Go `interface{}` value as used for datatable property defaults. -/
inductive JsonVal where
  | bool : Bool → JsonVal
  | str : String → JsonVal
  | int : Int → JsonVal
  | num : GoNum → JsonVal
deriving DecidableEq, Repr

/-! ## Go standard-library string conversions (`strconv`) -/

/-- Go `%q` display of a string inside a `strconv` error message
(escaping of special characters is not modelled). -/
def goQuote (s : String) : String := "\"" ++ s ++ "\""

/-- Value of a list of decimal digit characters. -/
def digitsToNat (ds : List Char) : Nat :=
  ds.foldl (fun n c => n * 10 + (c.toNat - 48)) 0

/-- Value of one hexadecimal digit character. -/
def hexDigitVal (c : Char) : Nat :=
  if c.isDigit then c.toNat - 48
  else if 'a' ≤ c ∧ c ≤ 'f' then c.toNat - 87
  else if 'A' ≤ c ∧ c ≤ 'F' then c.toNat - 55
  else 0

/-- Value of a list of hexadecimal digit characters. -/
def hexDigitsToNat (ds : List Char) : Nat :=
  ds.foldl (fun n c => n * 16 + hexDigitVal c) 0

/-- Go `strconv.ParseBool`: accepts exactly
`1, t, T, TRUE, true, True, 0, f, F, FALSE, false, False`. -/
def goParseBool (s : String) : Except String Bool :=
  if s = "1" ∨ s = "t" ∨ s = "T" ∨ s = "TRUE" ∨ s = "true" ∨ s = "True" then
    .ok true
  else if s = "0" ∨ s = "f" ∨ s = "F" ∨ s = "FALSE" ∨ s = "false" ∨ s = "False" then
    .ok false
  else
    .error ("strconv.ParseBool: parsing " ++ goQuote s ++ ": invalid syntax")

/-- Go `strconv.Atoi` (= `ParseInt(s, 10, 64)` on a 64-bit platform):
an optional sign followed by at least one decimal digit, rejecting values
outside the `int64` range. -/
def goAtoi (s : String) : Except String Int :=
  let stripped : Bool × List Char :=
    match s.data with
    | '+' :: rest => (false, rest)
    | '-' :: rest => (true, rest)
    | rest => (false, rest)
  let neg := stripped.1
  let ds := stripped.2
  if ds.isEmpty || !(ds.all (·.isDigit)) then
    .error ("strconv.Atoi: parsing " ++ goQuote s ++ ": invalid syntax")
  else
    let v : Int := if neg then -(digitsToNat ds : Int) else (digitsToNat ds : Int)
    if v < -(2 ^ 63) || 2 ^ 63 - 1 < v then
      .error ("strconv.Atoi: parsing " ++ goQuote s ++ ": value out of range")
    else
      .ok v

/-- Go `strconv`'s `underscoreOK`: underscores in a numeric literal must sit
between a `saw digit` state and a following digit (the `0x` base prefix counts
as digits for this purpose). State: `0` = just saw a digit, `_` = just saw an
underscore, `!` = other. -/
def underscoreOK (s : String) : Bool :=
  let afterSign : List Char :=
    match s.data with
    | '+' :: rest => rest
    | '-' :: rest => rest
    | rest => rest
  let hexed : Bool × Char × List Char :=
    match afterSign with
    | '0' :: x :: rest =>
      if x = 'x' ∨ x = 'X' then (true, '0', rest) else (false, '^', afterSign)
    | rest => (false, '^', rest)
  let hex := hexed.1
  let isDig : Char → Bool := fun c =>
    c.isDigit || (hex && (('a' ≤ c.toLower) && (c.toLower ≤ 'f')))
  let step : Char × Bool → Char → Char × Bool := fun st c =>
    match st with
    | (saw, bad) =>
      if bad then (saw, true)
      else if isDig c then ('0', false)
      else if c = '_' then (if saw = '0' then ('_', false) else (saw, true))
      else if saw = '_' then (saw, true)
      else ('!', false)
  let fin := hexed.2.2.foldl step (hexed.2.1, false)
  !fin.2 && fin.1 ≠ '_'

/-- Go `strconv.ParseFloat` handling of the special values: an optional sign
followed by `inf`/`infinity` (case-insensitive), or unsigned `nan`. -/
def parseFloatSpecial (s : String) : Option GoNum :=
  let lower := String.mk (s.data.map Char.toLower)
  if lower = "nan" then some .nan
  else
    let signed : Bool × String :=
      match lower.data with
      | '+' :: rest => (false, String.mk rest)
      | '-' :: rest => (true, String.mk rest)
      | _ => (false, lower)
    if signed.2 = "inf" ∨ signed.2 = "infinity" then some (.inf signed.1)
    else none

/-- Exponent part `(e|E)[sign]digits` of a decimal literal, or `(p|P)[sign]digits`
of a hexadecimal one; returns the signed exponent when well-formed and fully
consumed. -/
def parseExpPart (cs : List Char) : Option Int :=
  let stripped : Bool × List Char :=
    match cs with
    | '+' :: rest => (false, rest)
    | '-' :: rest => (true, rest)
    | rest => (false, rest)
  if stripped.2.isEmpty || !(stripped.2.all (·.isDigit)) then none
  else some (if stripped.1 then -(digitsToNat stripped.2 : Int) else (digitsToNat stripped.2 : Int))

/-- The exact rational `m * base ^ (e - scale * fracLen)`, built with `mkRat`
so that it evaluates by integer arithmetic alone: `m` is the mantissa read
with `fracLen` fractional digits (each worth `base ^ scale⁻¹`... i.e. the
mantissa is divided by `base ^ (scale * fracLen)`), and `e` is the signed
exponent on `base`. -/
def mantExpValue (base m fracLen : Nat) (scale : Nat) (e : Int) : ℚ :=
  let p : Int := e - scale * fracLen
  if 0 ≤ p then mkRat (m * base ^ p.toNat) 1 else mkRat m (base ^ (-p).toNat)

/-- Mantissa-and-exponent of an unsigned decimal float literal
`digits[.digits][(e|E)[sign]digits]` (underscores already removed), as an
exact rational. -/
def parseDecFloat (cs : List Char) : Option ℚ :=
  let ip := cs.takeWhile (·.isDigit)
  let rest := cs.dropWhile (·.isDigit)
  let fracRest : List Char × List Char :=
    match rest with
    | '.' :: r => (r.takeWhile (·.isDigit), r.dropWhile (·.isDigit))
    | r => ([], r)
  let fp := fracRest.1
  let rest2 := fracRest.2
  if ip.isEmpty && fp.isEmpty then none
  else
    let m := digitsToNat (ip ++ fp)
    match rest2 with
    | [] => some (mantExpValue 10 m fp.length 1 0)
    | c :: r =>
      if c = 'e' ∨ c = 'E' then
        (parseExpPart r).map (fun e => mantExpValue 10 m fp.length 1 e)
      else none

/-- Mantissa-and-exponent of an unsigned hexadecimal float literal
`0x hexdigits[.hexdigits] (p|P)[sign]digits` (the `0x` prefix already removed,
underscores already removed); the binary exponent is mandatory and each
fractional hex digit is worth `2 ^ 4` below the point. -/
def parseHexFloat (cs : List Char) : Option ℚ :=
  let isHex : Char → Bool := fun c => c.isDigit || (('a' ≤ c.toLower) && (c.toLower ≤ 'f'))
  let ip := cs.takeWhile isHex
  let rest := cs.dropWhile isHex
  let fracRest : List Char × List Char :=
    match rest with
    | '.' :: r => (r.takeWhile isHex, r.dropWhile isHex)
    | r => ([], r)
  let fp := fracRest.1
  let rest2 := fracRest.2
  if ip.isEmpty && fp.isEmpty then none
  else
    let m := hexDigitsToNat (ip ++ fp)
    match rest2 with
    | c :: r =>
      if c = 'p' ∨ c = 'P' then
        (parseExpPart r).map (fun e => mantExpValue 2 m fp.length 4 e)
      else none
    | [] => none

/-- Go `strconv.ParseFloat(s, 64)`: special values, or a signed decimal or
hexadecimal float literal, with underscores allowed between digits
(`underscoreOK`). The finite result is embedded as the exact rational value of
the literal; IEEE-754 rounding, and the out-of-range error on overflow, are
abstracted away. -/
def goParseFloat (s : String) : Except String GoNum :=
  match parseFloatSpecial s with
  | some v => .ok v
  | none =>
    let invalid : Except String GoNum :=
      .error ("strconv.ParseFloat: parsing " ++ goQuote s ++ ": invalid syntax")
    if !underscoreOK s then invalid
    else
      let cs := (s.data.filter (· ≠ '_'))
      let signed : Bool × List Char :=
        match cs with
        | '+' :: rest => (false, rest)
        | '-' :: rest => (true, rest)
        | rest => (false, rest)
      let body := signed.2
      let valOpt : Option ℚ :=
        match body with
        | '0' :: x :: rest =>
          if x = 'x' ∨ x = 'X' then parseHexFloat rest else parseDecFloat body
        | _ => parseDecFloat body
      match valOpt with
      | some q => .ok (.finite (if signed.1 then -q else q))
      | none => invalid

/-! ## Data model

Mirrors of the Go struct types defined in
`resource_genesyscloud_architect_datatable.go` (pointer fields become
`Option`); `map[string]Datatableproperty` becomes an association list.
-/

/-- `platformclientv2.Writabledivision` (only the field used here). -/
structure Writabledivision where
  Id : Option String := none
deriving DecidableEq, Repr

/-- The overridden `Datatableproperty` struct. -/
structure Datatableproperty where
  Id : Option String := none
  VarType : Option String := none
  Title : Option String := none
  Default : Option JsonVal := none
  DisplayOrder : Option Int := none
deriving DecidableEq, Repr

/-- The overridden `Jsonschemadocument` struct.  `AdditionalProperties` holds
an `interface{}`; the code only ever stores the boolean `false` there. -/
structure Jsonschemadocument where
  Schema : Option String := none
  VarType : Option String := none
  Required : Option (List String) := none
  Properties : Option (List (String × Datatableproperty)) := none
  AdditionalProperties : Option JsonVal := none
deriving DecidableEq, Repr

/-- The overridden `Datatable` struct. -/
structure Datatable where
  Id : Option String := none
  Name : Option String := none
  Description : Option String := none
  Division : Option Writabledivision := none
  Schema : Option Jsonschemadocument := none
deriving DecidableEq, Repr

/-- One element of the configured `properties` list as
`buildSdkDatatableProperties` reads it from `d.Get("properties")`: a
`map[string]interface{}` with the required keys `name` and `type` (fields
`name`, `varType`) and the optional keys `title` and `default` (`none` when
the key is absent from the map). -/
structure PropConfig where
  name : String
  varType : String
  title : Option String := none
  defVal : Option String := none
deriving DecidableEq, Repr

/-- One element of the list `flattenDatatableProperties` builds: a
`map[string]interface{}` with key `name` always set and the keys `type`,
`title`, `default` set conditionally (fields `varType`, `title`, `defVal`;
`none` = key absent). -/
structure FlatProp where
  name : String
  varType : Option String := none
  title : Option String := none
  defVal : Option String := none
deriving DecidableEq, Repr

/-! ## Schema-to-payload builder -/

/-- Go map assignment `m[k] = v` on the association-list embedding: replace
the value at an existing key in place, else append the new binding. -/
def mapInsert {α : Type} (m : List (String × α)) (k : String) (v : α) : List (String × α) :=
  match m with
  | [] => [(k, v)]
  | (k', v') :: rest => if k' = k then (k, v) :: rest else (k', v') :: mapInsert rest k v

/-- The `switch propType` of `buildSdkDatatableProperties`
(`resource_genesyscloud_architect_datatable.go:313-327`): convert a non-empty
default string to the declared type, surfacing the `strconv` error
(`diag.FromErr`) or the invalid-type diagnostic. -/
def parseDefault (varType propName def_ : String) : Except String JsonVal :=
  match varType with
  | "boolean" => (goParseBool def_).map .bool
  | "string" => .ok (.str def_)
  | "integer" => (goAtoi def_).map .int
  | "number" => (goParseFloat def_).map .num
  | t => .error ("Invalid type " ++ t ++ " for Datatable property " ++ propName)

/-- One iteration of the loop body of `buildSdkDatatableProperties`
(`resource_genesyscloud_architect_datatable.go:285-333`) at loop index `i`:
build the `Datatableproperty` for one configured property, converting a
non-empty `default` string to its declared type. -/
def buildProp (i : Int) (c : PropConfig) : Except String Datatableproperty :=
  let propId := "/properties/" ++ c.name
  let base : Datatableproperty :=
    { Id := some propId, DisplayOrder := some i, VarType := some c.varType, Title := c.title }
  match c.defVal with
  | none => .ok base
  | some def_ =>
    if def_ = "" then .ok base
    else
      match parseDefault c.varType c.name def_ with
      | .error e => .error e
      | .ok v => .ok { base with Default := some v }

/-- The loop of `buildSdkDatatableProperties`: fold the configured properties
into the `sdkProps` map, aborting on the first conversion error. -/
def buildSdkProps : List PropConfig → Int → List (String × Datatableproperty) →
    Except String (List (String × Datatableproperty))
  | [], _, acc => .ok acc
  | c :: rest, i, acc =>
    match buildProp i c with
    | .error e => .error e
    | .ok p => buildSdkProps rest (i + 1) (mapInsert acc c.name p)

/-- `buildSdkDatatableProperties`
(`resource_genesyscloud_architect_datatable.go:281-338`).  The argument is
`d.Get("properties").([]interface{})` (`none` = a nil slice).  Errors are the
`diag.Diagnostics` messages. -/
def buildSdkDatatableProperties (properties : Option (List PropConfig)) :
    Except String (Option (List (String × Datatableproperty))) :=
  match properties with
  | none => .ok none
  | some props =>
    match buildSdkProps props 0 [] with
    | .error e => .error e
    | .ok m => .ok (some m)

/-- `buildSdkDatatableSchema`
(`resource_genesyscloud_architect_datatable.go:259-279`). -/
def buildSdkDatatableSchema (properties : Option (List PropConfig)) :
    Except String Jsonschemadocument :=
  match buildSdkDatatableProperties properties with
  | .error e => .error e
  | .ok props =>
    .ok { Schema := some "http://json-schema.org/draft-04/schema#"
          VarType := some "object"
          Required := some ["key"]
          Properties := props
          AdditionalProperties := some (.bool false) }

/-! ## Payload-to-schema flattener -/

/-- Decimal display of a rational (used only for the idealized rendering of
`float64` values). -/
def renderRat (q : ℚ) : String :=
  if q.den = 1 then toString q.num else toString q.num ++ "/" ++ toString q.den

/-- Modelled from the spec: the repository's `interfaceToString` helper (in a
utils file not included under `src/`), the "(b) API payload → resource schema"
direction's display of a stored default value.  Per the schema description
("set 'true' or 'false' for booleans") and Go `fmt` `%v` formatting: booleans
display as `true`/`false`, strings as themselves, integers in decimal;
the display of a `float64` is idealized via `renderRat`. -/
def interfaceToString : JsonVal → String
  | .bool b => if b then "true" else "false"
  | .str s => s
  | .int n => toString n
  | .num (.finite q) => renderRat q
  | .num (.inf false) => "+Inf"
  | .num (.inf true) => "-Inf"
  | .num .nan => "NaN"

/-- The `DisplayOrder` a property sorts by: a nil `DisplayOrder` is replaced
by the default order `0` before the sort
(`resource_genesyscloud_architect_datatable.go:349-354`). -/
def defaultedOrder (p : Datatableproperty) : Int := p.DisplayOrder.getD 0

/-- The pre-sort `propList` of `flattenDatatableProperties`: the map entries
in iteration order, with nil `DisplayOrder` replaced by `0`. -/
def flattenKVList (properties : List (String × Datatableproperty)) :
    List (String × Datatableproperty) :=
  properties.map (fun kv => (kv.1, { kv.2 with DisplayOrder := some (defaultedOrder kv.2) }))

/-- The ordering `flattenDatatableProperties` sorts by (the reflexive closure
of the `less` function passed to `sort.SliceStable`). -/
def orderLE (a b : String × Datatableproperty) : Prop :=
  defaultedOrder a.2 ≤ defaultedOrder b.2

instance : DecidableRel orderLE := fun a b =>
  inferInstanceAs (Decidable (defaultedOrder a.2 ≤ defaultedOrder b.2))

instance : IsTotal (String × Datatableproperty) orderLE :=
  ⟨fun a b => Int.le_total (defaultedOrder a.2) (defaultedOrder b.2)⟩

instance : IsTrans (String × Datatableproperty) orderLE :=
  ⟨fun _ _ _ hab hbc => le_trans hab hbc⟩

/-- The sorted `propList`: `sort.SliceStable` with
`less i j = DisplayOrder i < DisplayOrder j` is embedded as a stable
insertion sort by non-decreasing `DisplayOrder`. -/
def flattenSorted (properties : List (String × Datatableproperty)) :
    List (String × Datatableproperty) :=
  List.insertionSort orderLE (flattenKVList properties)

/-- The `propMap` built for one sorted entry
(`resource_genesyscloud_architect_datatable.go:363-377`). -/
def renderKV (kv : String × Datatableproperty) : FlatProp :=
  { name := kv.1
    varType := kv.2.VarType
    title := kv.2.Title
    defVal := kv.2.Default.map interfaceToString }

/-- `flattenDatatableProperties`
(`resource_genesyscloud_architect_datatable.go:340-379`).  The argument is the
property map in one (unspecified) iteration order. -/
def flattenDatatableProperties (properties : List (String × Datatableproperty)) :
    List FlatProp :=
  (flattenSorted properties).map renderKV

/-! ## Retry machinery and CRUD handler closures -/

/-- Result of one retry-loop body: `ok` is the body returning nil (with the
value it produced), `retryable` is `resource.RetryableError(e)`, and
`nonRetryable` is `resource.NonRetryableError(e)` (errors carry their message
text). -/
inductive RetryStep (σ : Type) where
  | ok (val : σ)
  | retryable (e : String)
  | nonRetryable (e : String)
deriving DecidableEq, Repr

/-- Overall result of a bounded retry loop. -/
inductive RetryResult (σ : Type) where
  | ok (val : σ)
  | err (e : String)
  | timeout (e : String)
deriving DecidableEq, Repr

/-- Modelled from the spec: the "bounded-retry wrapper reused across handlers"
(`withRetries` / `withRetriesForRead`, in a utils file not included under
`src/`), a "retry loop around a single API call" with a deadline and "no
cancellation beyond the retry deadline".  `step i` is the loop body's result
on attempt number `i`; `fuel` is the number of retries the deadline still
allows: the body's result is returned when it is terminal, and a retryable
error is retried until the fuel is exhausted, when it is surfaced as the
timeout error. -/
def runWithRetries {σ : Type} (step : Nat → RetryStep σ) (start : Nat) :
    Nat → RetryResult σ
  | 0 =>
    match step start with
    | .ok v => .ok v
    | .retryable e => .timeout e
    | .nonRetryable e => .err e
  | fuel + 1 =>
    match step start with
    | .ok v => .ok v
    | .retryable _ => runWithRetries step (start + 1) fuel
    | .nonRetryable e => .err e

/-- `platformclientv2.APIResponse` (only the field used here). -/
structure APIResponse where
  StatusCode : Int
deriving DecidableEq, Repr

/-- Modelled from the spec: the repository's `isStatus404` helper (in a utils
file not included under `src/`), deciding whether a call was "retried on
transient 404s": true exactly when a response is present and its status code
is 404. -/
def isStatus404 (resp : Option APIResponse) : Bool :=
  match resp with
  | some r => r.StatusCode == 404
  | none => false

/-- The result of one `sdkGetArchitectDatatable` / `GetFlowsDatatable` call:
the returned datatable (nil on failure), the `*APIResponse`, and the error. -/
structure GetDatatableOutcome where
  datatable : Option Datatable := none
  resp : Option APIResponse := none
  getErr : Option String := none
deriving DecidableEq, Repr

/-- The state `readArchitectDatatable` writes through `d.Set` on a successful
GET (`resource_genesyscloud_architect_datatable.go:172-185`). -/
structure ReadDatatableState where
  name : String
  division_id : String
  description : Option String
  properties : Option (List FlatProp)
deriving DecidableEq, Repr

/-- The `properties` value `readArchitectDatatable` writes: the flattened
property map when `datatable.Schema` and `datatable.Schema.Properties` are
both non-nil, and nil otherwise
(`resource_genesyscloud_architect_datatable.go:181-185`). -/
def readProperties (dt : Datatable) : Option (List FlatProp) :=
  match dt.Schema with
  | some sch =>
    match sch.Properties with
    | some props => some (flattenDatatableProperties props)
    | none => none
  | none => none

/-- The success path of `readArchitectDatatable`'s closure: dereferences
`datatable.Name`, `datatable.Division` and `datatable.Division.Id`
unconditionally (`none` = the dereference panics), while a nil `Description`
and a nil `Schema`/`Schema.Properties` are written as nil. -/
def readDatatableSuccess (t : Option Datatable) : Option ReadDatatableState :=
  match t with
  | none => none
  | some dt =>
    match dt.Name, dt.Division with
    | some n, some div =>
      match div.Id with
      | some dId =>
        some { name := n
               division_id := dId
               description := dt.Description
               properties := readProperties dt }
      | none => none
    | _, _ => none

/-- The diagnostic message of `readArchitectDatatable`'s closure on a failed
GET (`diag` formatting of `"Failed to read datatable %s: %s"`). -/
def readDatatableErrDiag (id err : String) : String :=
  "Failed to read datatable " ++ id ++ ": " ++ err

/-- The `diag.Errorf("Failed to create datatable %s: %s", name, err)` message
of `createArchitectDatatable`. -/
def createDatatableErrDiag (name err : String) : String :=
  "Failed to create datatable " ++ name ++ ": " ++ err

/-- The `diag.Errorf("Failed to update datatable %s: %s", name, err)` message
of `updateArchitectDatatable`. -/
def updateDatatableErrDiag (name err : String) : String :=
  "Failed to update datatable " ++ name ++ ": " ++ err

/-- The `diag.Errorf("Failed to delete datatable %s: %s", name, err)` message
of `deleteArchitectDatatable`. -/
def deleteDatatableErrDiag (name err : String) : String :=
  "Failed to delete datatable " ++ name ++ ": " ++ err

/-- The `"Error deleting datatable row %s: %s"` message of the GET poll in
`deleteArchitectDatatable`. -/
def deleteRowPollErrDiag (name err : String) : String :=
  "Error deleting datatable row " ++ name ++ ": " ++ err

/-- The retry closure of `readArchitectDatatable`
(`resource_genesyscloud_architect_datatable.go:164-190`) on one GET outcome,
for the datatable id `dId`: a 404 failure is retryable, any other failure is
non-retryable, and a success writes the read state and returns nil.
`none` = the closure panics on a nil dereference. -/
def readArchitectDatatableAttempt (dId : String) (o : GetDatatableOutcome) :
    Option (RetryStep ReadDatatableState) :=
  match o.getErr with
  | some e =>
    if isStatus404 o.resp then some (.retryable (readDatatableErrDiag dId e))
    else some (.nonRetryable (readDatatableErrDiag dId e))
  | none => (readDatatableSuccess o.datatable).map .ok

/-- The GET-poll closure of `deleteArchitectDatatable`
(`resource_genesyscloud_architect_datatable.go:245-256`) on one GET outcome:
a 404 failure means the datatable is gone (success), any other failure is
non-retryable, and a successful GET means it still exists (retry). -/
def deleteArchitectDatatableAttempt (name : String) (o : GetDatatableOutcome) :
    RetryStep Unit :=
  match o.getErr with
  | some e =>
    if isStatus404 o.resp then .ok ()
    else .nonRetryable (deleteRowPollErrDiag name e)
  | none => .retryable ("Datatable row " ++ name ++ " still exists")

/-- `platformclientv2.Station` (only the field used here). -/
structure Station where
  Id : Option String := none
deriving DecidableEq, Repr

/-- The result of one `GetStations` call in `dataSourceStationRead`:
the entity list (`none` = nil slice) and the error. -/
structure GetStationsOutcome where
  entities : Option (List Station) := none
  getErr : Option String := none
deriving DecidableEq, Repr

/-- The retry closure of `dataSourceStationRead`
(`data_source_genesyscloud_station.go:33-45`) on one `GetStations` outcome:
an API error is non-retryable, a nil or empty entity list is retried, and
otherwise the id of the first station is set as the resource id.
`none` = the closure panics dereferencing the first station's nil `Id`. -/
def dataSourceStationAttempt (o : GetStationsOutcome) : Option (RetryStep String) :=
  match o.getErr with
  | some e => some (.nonRetryable ("Error requesting station " ++ e))
  | none =>
    match o.entities with
    | none => some (.retryable "No stations found")
    | some [] => some (.retryable "No stations found")
    | some (st :: _) => (st.Id).map .ok

/-! ## Derived notions used to state the claims -/

/-- The default value `buildProp` stores for a configured property when the
conversion succeeds. -/
def parsedDefault (c : PropConfig) : Option JsonVal :=
  match c.defVal with
  | none => none
  | some d =>
    if d = "" then none
    else (parseDefault c.varType c.name d).toOption

/-- The `Datatableproperty` built for configured property `c` at loop index
`i` when the conversion succeeds. -/
def mkProp (i : Int) (c : PropConfig) : Datatableproperty :=
  { Id := some ("/properties/" ++ c.name)
    DisplayOrder := some i
    VarType := some c.varType
    Title := c.title
    Default := parsedDefault c }

/-- The association list `buildSdkDatatableProperties` builds from a
configuration with pairwise-distinct names, starting at loop index `i`. -/
def builtList : List PropConfig → Int → List (String × Datatableproperty)
  | [], _ => []
  | c :: rest, i => (c.name, mkProp i c) :: builtList rest (i + 1)

/-- The configured property list rendered in the shape
`flattenDatatableProperties` produces: each entry keeps its name, declared
type, title and default string. -/
def renderConfig (cfg : List PropConfig) : List FlatProp :=
  cfg.map fun c => { name := c.name, varType := some c.varType, title := c.title, defVal := c.defVal }

/-- A configured default is absent, or non-empty, convertible to the declared
type, and in canonical form: displaying the converted value gives back exactly
the configured string. -/
def canonicalDefault (c : PropConfig) : Bool :=
  match c.defVal with
  | none => true
  | some d =>
    !(d = "") &&
      (match parseDefault c.varType c.name d with
       | .ok v => interfaceToString v == d
       | .error _ => false)

/-- The round trip of the claim: build the SDK property map from a
configuration, then flatten it back (`none` when the build fails or the
configuration list is nil). -/
def flattenOfBuild (cfg : List PropConfig) : Option (List FlatProp) :=
  match buildSdkDatatableProperties (some cfg) with
  | .ok (some m) => some (flattenDatatableProperties m)
  | _ => none

/-- `flattenDatatableProperties` yields the rendered configuration back for
every iteration order of the map built from `cfg`. -/
def FlattenRecoversConfig (cfg : List PropConfig) : Prop :=
  ∃ m, buildSdkDatatableProperties (some cfg) = .ok (some m) ∧
    ∀ e, e.Perm m → flattenDatatableProperties e = renderConfig cfg

/-- Whether `buildSdkDatatableProperties` fails on this configuration list. -/
def buildFails (cfg : List PropConfig) : Bool :=
  match buildSdkDatatableProperties (some cfg) with
  | .error _ => true
  | .ok _ => false

/-- The strict ordering underlying the `less` function passed to
`sort.SliceStable`. -/
def orderLT (a b : String × Datatableproperty) : Prop :=
  defaultedOrder a.2 < defaultedOrder b.2

instance : DecidableRel orderLT := fun a b =>
  inferInstanceAs (Decidable (defaultedOrder a.2 < defaultedOrder b.2))

instance : IsAntisymm (String × Datatableproperty) orderLT :=
  ⟨fun _ _ h h' => absurd h' (not_lt.mpr (le_of_lt h))⟩

/-- Stability of the display-order sort: for every display order `k`, the
entries of order `k` appear in the sorted `propList` exactly as they appear in
the pre-sort `propList`. -/
def SortStable (l : List (String × Datatableproperty)) : Prop :=
  ∀ k : Int,
    (flattenSorted l).filter (fun kv => defaultedOrder kv.2 == k) =
      (flattenKVList l).filter (fun kv => defaultedOrder kv.2 == k)

/-- The retry-loop body result is a retryable error. -/
def isRetryableStep {σ : Type} (s : Option (RetryStep σ)) : Bool :=
  match s with
  | some (.retryable _) => true
  | _ => false

/-- The retry-loop body result is a non-retryable error. -/
def isNonRetryableStep {σ : Type} (s : Option (RetryStep σ)) : Bool :=
  match s with
  | some (.nonRetryable _) => true
  | _ => false

/-- Every attempt of the loop body fails with the same retryable error. -/
def ConstRetryable {σ : Type} (steps : Nat → RetryStep σ) (e : String) : Prop :=
  ∀ j, steps j = .retryable e

/-- The delete-poll step sequence induced by a sequence of GET outcomes. -/
def deleteSteps (name : String) (outcomes : Nat → GetDatatableOutcome) :
    Nat → RetryStep Unit :=
  fun i => deleteArchitectDatatableAttempt name (outcomes i)

/-- Safety of the delete poll: whenever the bounded retry loop over the GET
outcomes reports success, some attempt `i` within the deadline saw the GET
fail with status 404, and every earlier attempt saw the GET succeed (the
datatable still existed) — so success is never reported while a GET keeps
succeeding. -/
def DeleteNeverOkWhileExists (name : String) (outcomes : Nat → GetDatatableOutcome)
    (start fuel : Nat) : Prop :=
  runWithRetries (deleteSteps name outcomes) start fuel = .ok () →
    ∃ i, start ≤ i ∧ i ≤ start + fuel ∧
      (outcomes i).getErr.isSome = true ∧ isStatus404 (outcomes i).resp = true ∧
      ∀ j, start ≤ j → j < i → (outcomes j).getErr = none

/-- A handler diagnostic built by `f` embeds the API error text verbatim: the
diagnostic is a context prefix followed, unchanged, by the error. -/
def SuffixVerbatim (f : String → String → String) : Prop :=
  ∀ name err, ∃ ctx, f name err = ctx ++ err

/-! ## Concrete fixtures used by witnesses -/

/-- The schema document built for the one-property configuration
`[{name := "id", type := "integer"}]`, which has no property named `key`. -/
def exampleNoKeyDoc : Jsonschemadocument :=
  { Schema := some "http://json-schema.org/draft-04/schema#"
    VarType := some "object"
    Required := some ["key"]
    Properties := some [("id",
      { Id := some "/properties/id", VarType := some "integer", DisplayOrder := some 0 })]
    AdditionalProperties := some (.bool false) }

/-- A fully populated datatable response body. -/
def exampleDatatable : Datatable :=
  { Id := some "d1", Name := some "tbl", Division := some { Id := some "div" } }

/-- A step sequence that keeps failing with the same retryable error. -/
def constSteps (σ : Type) (s : RetryStep σ) : Nat → RetryStep σ := fun _ => s

/-- A GET-outcome sequence for the delete poll: the datatable still exists on
attempts 0 and 1 and is gone (404) from attempt 2 on. -/
def exampleDeleteOutcomes : Nat → GetDatatableOutcome := fun i =>
  if i < 2 then {} else { resp := some { StatusCode := 404 }, getErr := some "not found" }

/-- A property map enumeration with display orders `2`, nil and `1`. -/
def exampleFlattenInput : List (String × Datatableproperty) :=
  [("b", { DisplayOrder := some 2 }), ("a", {}), ("c", { DisplayOrder := some 1 })]

/-- A valid configuration with distinct names and canonical defaults. -/
def exampleRoundtripCfg : List PropConfig :=
  [{ name := "key", varType := "string" },
   { name := "on", varType := "boolean", title := some "On", defVal := some "true" },
   { name := "cnt", varType := "integer", defVal := some "7" }]

/-! ## Generic facts about the retry wrapper -/

theorem runWithRetries_err {σ : Type} (steps : Nat → RetryStep σ) (i fuel : Nat)
    (e : String) (h : steps i = .nonRetryable e) :
    runWithRetries steps i fuel = .err e := by
  cases fuel <;> simp [runWithRetries, h]

theorem runWithRetries_ok {σ : Type} (steps : Nat → RetryStep σ) (i fuel : Nat)
    (v : σ) (h : steps i = .ok v) :
    runWithRetries steps i fuel = .ok v := by
  cases fuel <;> simp [runWithRetries, h]

theorem runWithRetries_timeout {σ : Type} (steps : Nat → RetryStep σ) (e : String)
    (h : ConstRetryable steps e) :
    ∀ fuel i, runWithRetries steps i fuel = .timeout e := by
  intro fuel
  induction fuel with
  | zero => intro i; simp [runWithRetries, h i]
  | succ n ih => intro i; simp [runWithRetries, h i]; exact ih (i + 1)

/-! ## Claim theorems -/

/-- C8: for every input configuration on which the schema build succeeds, the
JSON schema document built by `buildSdkDatatableSchema` has `$schema`
`http://json-schema.org/draft-04/schema#`, type `object`, `required` exactly
`["key"]` and `additionalProperties` false — the builder never inspects the
configured property names, so this also holds when no property is named
`key`. -/
theorem buildSchema_constants (cfg : Option (List PropConfig)) (doc : Jsonschemadocument)
    (h : buildSdkDatatableSchema cfg = .ok doc) :
    doc.Schema = some "http://json-schema.org/draft-04/schema#" ∧
    doc.VarType = some "object" ∧
    doc.Required = some ["key"] ∧
    doc.AdditionalProperties = some (.bool false) := by
  unfold buildSdkDatatableSchema at h
  cases hb : buildSdkDatatableProperties cfg with
  | error e => rw [hb] at h; cases h
  | ok props =>
    rw [hb] at h
    cases h
    exact ⟨rfl, rfl, rfl, rfl⟩

theorem buildSchema_constants_witness :
    buildSdkDatatableSchema (some [{ name := "id", varType := "integer" }]) =
      .ok exampleNoKeyDoc ∧
    (exampleNoKeyDoc.Schema = some "http://json-schema.org/draft-04/schema#" ∧
     exampleNoKeyDoc.VarType = some "object" ∧
     exampleNoKeyDoc.Required = some ["key"] ∧
     exampleNoKeyDoc.AdditionalProperties = some (.bool false)) :=
  ⟨by decide, buildSchema_constants (some [{ name := "id", varType := "integer" }])
    exampleNoKeyDoc (by decide)⟩

/-- C4 counterexample: the claim says the handler reports the API error value
unchanged, but `createArchitectDatatable` wraps it: at name `x` and API error
`boom` the reported diagnostic is `Failed to create datatable x: boom`, not
`boom`. -/
theorem createDiag_not_verbatim : createDatatableErrDiag "x" "boom" ≠ "boom" := by
  decide

/-- C4 (amended): every error returned by a vendor API call in the datatable
CRUD handlers is embedded in the returned diagnostic verbatim — the
diagnostic is a handler-context prefix followed, character for character, by
the API error text. -/
theorem handlerDiags_embed_error :
    SuffixVerbatim createDatatableErrDiag ∧
    SuffixVerbatim readDatatableErrDiag ∧
    SuffixVerbatim updateDatatableErrDiag ∧
    SuffixVerbatim deleteDatatableErrDiag ∧
    SuffixVerbatim deleteRowPollErrDiag := by
  refine ⟨?_, ?_, ?_, ?_, ?_⟩ <;> intro n e <;> exact ⟨_, rfl⟩

/-- C9: on a successful GET, `readArchitectDatatable` is total exactly under
the precondition that `Name`, `Division` and `Division.Id` are non-nil (a nil
`Description` and a nil `Schema`/`Schema.Properties` are handled), and
`dataSourceStationRead` under the precondition that the first entity's `Id`
is non-nil; with a nil `Division`, a nil `Division.Id` or a nil first-station
`Id`, the panic branch (`none`) is reached. -/
theorem read_nil_dereference_safety (dt : Datatable) (n dId : String)
    (dv : Writabledivision) (st : Station) (rest : List Station) (sId : String) :
    (dt.Name = some n → dt.Division = some dv → dv.Id = some dId →
      readDatatableSuccess (some dt) =
        some { name := n, division_id := dId, description := dt.Description,
               properties := readProperties dt }) ∧
    readDatatableSuccess (some { Name := some "t", Division := none }) = none ∧
    readDatatableSuccess (some { Name := some "t", Division := some { Id := none } }) = none ∧
    (st.Id = some sId →
      dataSourceStationAttempt { entities := some (st :: rest) } = some (.ok sId)) ∧
    dataSourceStationAttempt { entities := some [{ Id := none }] } = none := by
  refine ⟨?_, rfl, rfl, ?_, rfl⟩
  · intro hn hd hi
    simp [readDatatableSuccess, hn, hd, hi]
  · intro hid
    simp [dataSourceStationAttempt, hid]

theorem read_nil_dereference_safety_witness :
    (exampleDatatable.Name = some "tbl" ∧
     exampleDatatable.Division = some { Id := some "div" } ∧
     (Writabledivision.mk (some "div")).Id = some "div" ∧
     (Station.mk (some "s1")).Id = some "s1") ∧
    readDatatableSuccess (some exampleDatatable) =
      some { name := "tbl", division_id := "div", description := exampleDatatable.Description,
             properties := readProperties exampleDatatable } ∧
    dataSourceStationAttempt { entities := some [Station.mk (some "s1")] } =
      some (.ok "s1") :=
  ⟨⟨rfl, rfl, rfl, rfl⟩,
   (read_nil_dereference_safety exampleDatatable "tbl" "div" { Id := some "div" }
     (Station.mk (some "s1")) [] "s1").1 rfl rfl rfl,
   (read_nil_dereference_safety exampleDatatable "tbl" "div" { Id := some "div" }
     (Station.mk (some "s1")) [] "s1").2.2.2.1 rfl⟩

/-- C3: the closure of `readArchitectDatatable` classifies a failed GET as
retryable exactly when the failure carries HTTP status 404 and as
non-retryable for every other failure, and returns no error on a successful
response; within the deadline the wrapper keeps retrying retryable attempts
and surfaces everything else at once. -/
theorem readRetry_on_404 (dId : String) (o : GetDatatableOutcome)
    (st : ReadDatatableState) (steps : Nat → RetryStep ReadDatatableState)
    (i fuel : Nat) (e : String) :
    (isRetryableStep (readArchitectDatatableAttempt dId o) = true ↔
      o.getErr.isSome = true ∧ isStatus404 o.resp = true) ∧
    (isNonRetryableStep (readArchitectDatatableAttempt dId o) = true ↔
      o.getErr.isSome = true ∧ isStatus404 o.resp = false) ∧
    (o.getErr = none → readDatatableSuccess o.datatable = some st →
      readArchitectDatatableAttempt dId o = some (.ok st)) ∧
    (steps i = .nonRetryable e → runWithRetries steps i fuel = .err e) ∧
    (steps i = .ok st → runWithRetries steps i fuel = .ok st) ∧
    (ConstRetryable steps e → runWithRetries steps i fuel = .timeout e) := by
  obtain ⟨dt, resp, ge⟩ := o
  refine ⟨?_, ?_, ?_, runWithRetries_err steps i fuel e,
    runWithRetries_ok steps i fuel st, fun h => runWithRetries_timeout steps e h fuel i⟩
  · cases ge with
    | none =>
      cases h : readDatatableSuccess dt <;>
        simp [readArchitectDatatableAttempt, isRetryableStep, h]
    | some e' =>
      cases h404 : isStatus404 resp <;>
        simp [readArchitectDatatableAttempt, isRetryableStep, h404]
  · cases ge with
    | none =>
      cases h : readDatatableSuccess dt <;>
        simp [readArchitectDatatableAttempt, isNonRetryableStep, h]
    | some e' =>
      cases h404 : isStatus404 resp <;>
        simp [readArchitectDatatableAttempt, isNonRetryableStep, h404]
  · intro h1 h2
    simp only at h1 h2
    subst h1
    simp [readArchitectDatatableAttempt, h2]

theorem readRetry_on_404_witness :
    isRetryableStep (readArchitectDatatableAttempt "d"
      { resp := some { StatusCode := 404 }, getErr := some "api error" }) = true ∧
    isNonRetryableStep (readArchitectDatatableAttempt "d"
      { resp := some { StatusCode := 500 }, getErr := some "api error" }) = true ∧
    readArchitectDatatableAttempt "d" { datatable := some exampleDatatable } =
      some (.ok { name := "tbl", division_id := "div", description := none,
                  properties := none }) ∧
    runWithRetries (constSteps ReadDatatableState (.retryable "pending")) 0 2 =
      .timeout "pending" :=
  ⟨(readRetry_on_404 "d" { resp := some { StatusCode := 404 }, getErr := some "api error" }
      { name := "", division_id := "", description := none, properties := none }
      (constSteps _ (.retryable "pending")) 0 2 "pending").1.mpr ⟨rfl, rfl⟩,
   (readRetry_on_404 "d" { resp := some { StatusCode := 500 }, getErr := some "api error" }
      { name := "", division_id := "", description := none, properties := none }
      (constSteps _ (.retryable "pending")) 0 2 "pending").2.1.mpr ⟨rfl, rfl⟩,
   (readRetry_on_404 "d" { datatable := some exampleDatatable }
      { name := "tbl", division_id := "div", description := none, properties := none }
      (constSteps _ (.retryable "pending")) 0 2 "pending").2.2.1 rfl (by decide),
   (readRetry_on_404 "d" { datatable := some exampleDatatable }
      { name := "tbl", division_id := "div", description := none, properties := none }
      (constSteps _ (.retryable "pending")) 0 2 "pending").2.2.2.2.2
     (fun _ => rfl)⟩

/-- C5: `dataSourceStationRead` is a timed retry loop: the closure retries
while the station list is nil or empty, succeeds with the first station's id
as soon as one is returned, and fails non-retryably (no further attempts made
by the wrapper) when `GetStations` itself errors; an always-empty answer
times out at the deadline. -/
theorem stationRead_retry_loop (o : GetStationsOutcome) (e sId : String) (st : Station)
    (rest : List Station) (steps : Nat → RetryStep String) (i fuel : Nat) (v : String) :
    (o.getErr = some e → dataSourceStationAttempt o =
      some (.nonRetryable ("Error requesting station " ++ e))) ∧
    (o.getErr = none → (o.entities = none ∨ o.entities = some []) →
      dataSourceStationAttempt o = some (.retryable "No stations found")) ∧
    (o.getErr = none → o.entities = some (st :: rest) → st.Id = some sId →
      dataSourceStationAttempt o = some (.ok sId)) ∧
    (steps i = .nonRetryable e → runWithRetries steps i fuel = .err e) ∧
    (steps i = .ok v → runWithRetries steps i fuel = .ok v) ∧
    (ConstRetryable steps e → runWithRetries steps i fuel = .timeout e) := by
  obtain ⟨ents, ge⟩ := o
  refine ⟨?_, ?_, ?_, runWithRetries_err steps i fuel e,
    runWithRetries_ok steps i fuel v, fun h => runWithRetries_timeout steps e h fuel i⟩
  · intro h
    simp only at h
    subst h
    simp [dataSourceStationAttempt]
  · intro h1 h2
    simp only at h1 h2
    subst h1
    rcases h2 with h2 | h2 <;> subst h2 <;> simp [dataSourceStationAttempt]
  · intro h1 h2 h3
    simp only at h1 h2
    subst h1
    subst h2
    simp [dataSourceStationAttempt, h3]

theorem stationRead_retry_loop_witness :
    dataSourceStationAttempt { getErr := some "boom" } =
      some (.nonRetryable ("Error requesting station " ++ "boom")) ∧
    dataSourceStationAttempt { entities := some [] } =
      some (.retryable "No stations found") ∧
    dataSourceStationAttempt { entities := some [{ Id := some "s1" }] } =
      some (.ok "s1") ∧
    runWithRetries (constSteps String (.nonRetryable "boom")) 0 5 = .err "boom" ∧
    runWithRetries (constSteps String (.retryable "No stations found")) 0 7 =
      .timeout "No stations found" :=
  ⟨(stationRead_retry_loop { getErr := some "boom" } "boom" "s1" { Id := some "s1" } []
      (constSteps _ (.nonRetryable "boom")) 0 5 "v").1 rfl,
   (stationRead_retry_loop { entities := some [] } "boom" "s1" { Id := some "s1" } []
      (constSteps _ (.nonRetryable "boom")) 0 5 "v").2.1 rfl (Or.inr rfl),
   (stationRead_retry_loop { entities := some [{ Id := some "s1" }] } "boom" "s1"
      { Id := some "s1" } [] (constSteps _ (.nonRetryable "boom")) 0 5 "v").2.2.1
     rfl rfl rfl,
   (stationRead_retry_loop { entities := some [] } "boom" "s1" { Id := some "s1" } []
      (constSteps _ (.nonRetryable "boom")) 0 5 "v").2.2.2.1 rfl,
   (stationRead_retry_loop { entities := some [] } "No stations found" "s1"
      { Id := some "s1" } [] (constSteps _ (.retryable "No stations found")) 0 7
      "v").2.2.2.2.2 (fun _ => rfl)⟩

theorem deleteAttempt_ok_iff (name : String) (o : GetDatatableOutcome) :
    deleteArchitectDatatableAttempt name o = .ok () ↔
      o.getErr.isSome = true ∧ isStatus404 o.resp = true := by
  obtain ⟨dt, resp, ge⟩ := o
  cases ge <;> cases h404 : isStatus404 resp <;>
    simp [deleteArchitectDatatableAttempt, h404]

theorem deleteAttempt_retryable_iff (name : String) (o : GetDatatableOutcome) :
    deleteArchitectDatatableAttempt name o =
      .retryable ("Datatable row " ++ name ++ " still exists") ↔ o.getErr = none := by
  obtain ⟨dt, resp, ge⟩ := o
  cases ge <;> cases h404 : isStatus404 resp <;>
    simp [deleteArchitectDatatableAttempt, h404]

theorem deleteLoop_safety (name : String) (outcomes : Nat → GetDatatableOutcome) :
    ∀ fuel start, DeleteNeverOkWhileExists name outcomes start fuel := by
  intro fuel
  induction fuel with
  | zero =>
    intro start hrun
    unfold runWithRetries at hrun
    cases hstep : deleteSteps name outcomes start with
    | ok u =>
      obtain ⟨hsome, h404⟩ := (deleteAttempt_ok_iff name (outcomes start)).mp hstep
      exact ⟨start, le_refl _, Nat.le_add_right _ _, hsome, h404,
        fun j hj1 hj2 => absurd (lt_of_le_of_lt hj1 hj2) (lt_irrefl _)⟩
    | retryable e' => rw [hstep] at hrun; cases hrun
    | nonRetryable e' => rw [hstep] at hrun; cases hrun
  | succ n ih =>
    intro start hrun
    unfold runWithRetries at hrun
    cases hstep : deleteSteps name outcomes start with
    | ok u =>
      obtain ⟨hsome, h404⟩ := (deleteAttempt_ok_iff name (outcomes start)).mp hstep
      exact ⟨start, le_refl _, Nat.le_add_right _ _, hsome, h404,
        fun j hj1 hj2 => absurd (lt_of_le_of_lt hj1 hj2) (lt_irrefl _)⟩
    | retryable e' =>
      rw [hstep] at hrun
      obtain ⟨i, hi1, hi2, hsome, h404, hprev⟩ := ih (start + 1) hrun
      refine ⟨i, by omega, by omega, hsome, h404, ?_⟩
      intro j hj1 hj2
      rcases Nat.eq_or_lt_of_le hj1 with hj | hj
      · have hret : deleteArchitectDatatableAttempt name (outcomes start) =
            .retryable ("Datatable row " ++ name ++ " still exists") := by
          have he : e' = "Datatable row " ++ name ++ " still exists" := by
            have := hstep
            unfold deleteSteps deleteArchitectDatatableAttempt at this
            cases hge : (outcomes start).getErr with
            | none => rw [hge] at this; exact (RetryStep.retryable.inj this.symm)
            | some e'' =>
              rw [hge] at this
              cases h404' : isStatus404 (outcomes start).resp <;>
                rw [h404'] at this <;> cases this
          rw [← he]; exact hstep
        rw [← hj]
        exact (deleteAttempt_retryable_iff name (outcomes start)).mp hret
      · exact hprev j hj hj2
    | nonRetryable e' => rw [hstep] at hrun; cases hrun

/-- C6: the GET poll after a successful DELETE reports success exactly when a
GET fails with HTTP 404, keeps retrying while the GET succeeds (the datatable
still exists), fails non-retryably on any other GET failure, and — as the
loop's safety property — never reports success while every GET before the
404 kept succeeding without one. -/
theorem deletePoll_never_ok_while_exists (name : String) (o : GetDatatableOutcome)
    (e : String) (outcomes : Nat → GetDatatableOutcome) (start fuel : Nat) :
    (deleteArchitectDatatableAttempt name o = .ok () ↔
      o.getErr.isSome = true ∧ isStatus404 o.resp = true) ∧
    (deleteArchitectDatatableAttempt name o =
      .retryable ("Datatable row " ++ name ++ " still exists") ↔ o.getErr = none) ∧
    (o.getErr = some e → isStatus404 o.resp = false →
      deleteArchitectDatatableAttempt name o = .nonRetryable (deleteRowPollErrDiag name e)) ∧
    DeleteNeverOkWhileExists name outcomes start fuel := by
  refine ⟨deleteAttempt_ok_iff name o, deleteAttempt_retryable_iff name o, ?_,
    deleteLoop_safety name outcomes fuel start⟩
  intro h1 h2
  simp [deleteArchitectDatatableAttempt, h1, h2]

theorem deletePoll_never_ok_while_exists_witness :
    deleteArchitectDatatableAttempt "t"
      { resp := some { StatusCode := 404 }, getErr := some "not found" } = .ok () ∧
    deleteArchitectDatatableAttempt "t" {} =
      .retryable ("Datatable row " ++ "t" ++ " still exists") ∧
    deleteArchitectDatatableAttempt "t"
      { resp := some { StatusCode := 500 }, getErr := some "boom" } =
      .nonRetryable (deleteRowPollErrDiag "t" "boom") ∧
    DeleteNeverOkWhileExists "t" exampleDeleteOutcomes 0 3 :=
  ⟨(deletePoll_never_ok_while_exists "t"
      { resp := some { StatusCode := 404 }, getErr := some "not found" } "boom"
      exampleDeleteOutcomes 0 3).1.mpr ⟨rfl, rfl⟩,
   (deletePoll_never_ok_while_exists "t" {} "boom" exampleDeleteOutcomes 0 3).2.1.mpr rfl,
   (deletePoll_never_ok_while_exists "t"
      { resp := some { StatusCode := 500 }, getErr := some "boom" } "boom"
      exampleDeleteOutcomes 0 3).2.2.1 rfl rfl,
   (deletePoll_never_ok_while_exists "t"
      { resp := some { StatusCode := 404 }, getErr := some "not found" } "boom"
      exampleDeleteOutcomes 0 3).2.2.2⟩

/-! ## Stability and determinism of the display-order sort -/

theorem defaultedOrder_set (p : Datatableproperty) :
    defaultedOrder { p with DisplayOrder := some (defaultedOrder p) } = defaultedOrder p :=
  rfl

theorem orders_map_flattenKVList (l : List (String × Datatableproperty)) :
    (flattenKVList l).map (fun kv => defaultedOrder kv.2) =
      l.map (fun kv => defaultedOrder kv.2) := by
  induction l with
  | nil => rfl
  | cons b t ih => simp [flattenKVList, defaultedOrder_set] at ih ⊢

theorem map_fst_flattenKVList (l : List (String × Datatableproperty)) :
    (flattenKVList l).map Prod.fst = l.map Prod.fst := by
  induction l with
  | nil => rfl
  | cons b t ih => simp [flattenKVList] at ih ⊢

theorem filter_orderedInsert (x : String × Datatableproperty)
    (l : List (String × Datatableproperty)) (k : Int) :
    (List.orderedInsert orderLE x l).filter (fun kv => defaultedOrder kv.2 == k) =
      if defaultedOrder x.2 == k then
        x :: l.filter (fun kv => defaultedOrder kv.2 == k)
      else l.filter (fun kv => defaultedOrder kv.2 == k) := by
  induction l with
  | nil =>
    cases hx : (defaultedOrder x.2 == k) <;> simp [List.orderedInsert, hx]
  | cons b t ih =>
    by_cases hle : orderLE x b
    · rw [List.orderedInsert_of_le orderLE t hle]
      cases hx : (defaultedOrder x.2 == k) <;> simp [List.filter_cons, hx]
    · have hstep : List.orderedInsert orderLE x (b :: t) =
          b :: List.orderedInsert orderLE x t := by
        simp [List.orderedInsert, hle]
      have hlt : defaultedOrder b.2 < defaultedOrder x.2 := by
        have := hle
        unfold orderLE at this
        omega
      rw [hstep]
      cases hx : (defaultedOrder x.2 == k) <;>
        cases hb : (defaultedOrder b.2 == k) <;>
          simp_all [List.filter_cons, ih]

theorem filter_insertionSort (l : List (String × Datatableproperty)) (k : Int) :
    (List.insertionSort orderLE l).filter (fun kv => defaultedOrder kv.2 == k) =
      l.filter (fun kv => defaultedOrder kv.2 == k) := by
  induction l with
  | nil => rfl
  | cons b t ih =>
    rw [List.insertionSort, filter_orderedInsert]
    cases hb : (defaultedOrder b.2 == k) <;> simp [List.filter_cons, hb, ih]

theorem pairwiseLT_of_sorted_nodup (l : List (String × Datatableproperty))
    (hs : List.Sorted orderLE l)
    (hn : (l.map (fun kv => defaultedOrder kv.2)).Nodup) :
    l.Pairwise orderLT := by
  have hne : l.Pairwise (fun a b => defaultedOrder a.2 ≠ defaultedOrder b.2) :=
    List.pairwise_map.mp hn
  exact (hs.and hne).imp (fun h => lt_of_le_of_ne h.1 h.2)

theorem sorted_perm_strict_eq (l₁ l₂ : List (String × Datatableproperty))
    (hp : l₁.Perm l₂) (hs : List.Sorted orderLE l₁) (hstrict : l₂.Pairwise orderLT) :
    l₁ = l₂ := by
  have hn₂ : (l₂.map (fun kv => defaultedOrder kv.2)).Nodup :=
    List.pairwise_map.mpr (hstrict.imp (fun h => ne_of_lt h))
  have hn₁ : (l₁.map (fun kv => defaultedOrder kv.2)).Nodup :=
    ((hp.map (fun kv => defaultedOrder kv.2)).nodup_iff).mpr hn₂
  exact List.eq_of_perm_of_sorted hp (pairwiseLT_of_sorted_nodup l₁ hs hn₁) hstrict

/-- C2: `flattenDatatableProperties` renders the map entries sorted in
non-decreasing `DisplayOrder` (nil treated as `0`); the sort is stable —
entries of equal order keep their relative order from the pre-sort list —
and the output has exactly one entry per key of the input map. -/
theorem flatten_sorted_stable (l : List (String × Datatableproperty))
    (hnodup : (l.map Prod.fst).Nodup) :
    flattenDatatableProperties l = (flattenSorted l).map renderKV ∧
    List.Sorted orderLE (flattenSorted l) ∧
    SortStable l ∧
    ((flattenDatatableProperties l).map FlatProp.name).Perm (l.map Prod.fst) ∧
    ((flattenDatatableProperties l).map FlatProp.name).Nodup ∧
    (flattenDatatableProperties l).length = l.length := by
  have hnames : (flattenDatatableProperties l).map FlatProp.name =
      (flattenSorted l).map Prod.fst := by
    unfold flattenDatatableProperties
    rw [List.map_map]
    rfl
  have hperm : ((flattenSorted l).map Prod.fst).Perm (l.map Prod.fst) := by
    have h1 : ((flattenSorted l).map Prod.fst).Perm ((flattenKVList l).map Prod.fst) :=
      (List.perm_insertionSort orderLE _).map _
    rw [map_fst_flattenKVList] at h1
    exact h1
  refine ⟨rfl, List.sorted_insertionSort orderLE _,
    fun k => filter_insertionSort (flattenKVList l) k, ?_, ?_, ?_⟩
  · rw [hnames]; exact hperm
  · rw [hnames]; exact (hperm.nodup_iff).mpr hnodup
  · unfold flattenDatatableProperties flattenSorted
    rw [List.length_map, List.length_insertionSort]
    simp [flattenKVList]

theorem flatten_sorted_stable_witness :
    (exampleFlattenInput.map Prod.fst).Nodup ∧
    (flattenDatatableProperties exampleFlattenInput =
      (flattenSorted exampleFlattenInput).map renderKV ∧
     List.Sorted orderLE (flattenSorted exampleFlattenInput) ∧
     SortStable exampleFlattenInput ∧
     ((flattenDatatableProperties exampleFlattenInput).map FlatProp.name).Perm
       (exampleFlattenInput.map Prod.fst) ∧
     ((flattenDatatableProperties exampleFlattenInput).map FlatProp.name).Nodup ∧
     (flattenDatatableProperties exampleFlattenInput).length =
       exampleFlattenInput.length) :=
  ⟨by decide, flatten_sorted_stable exampleFlattenInput (by decide)⟩

/-- C10: on a map whose (nil-defaulted) `DisplayOrder` values are pairwise
distinct, `flattenDatatableProperties` is deterministic — two iteration
orders of the same map contents produce the same output list. -/
theorem flatten_deterministic (l₁ l₂ : List (String × Datatableproperty))
    (hperm : l₁.Perm l₂)
    (hord : (l₂.map (fun kv => defaultedOrder kv.2)).Nodup) :
    flattenDatatableProperties l₁ = flattenDatatableProperties l₂ := by
  unfold flattenDatatableProperties
  suffices h : flattenSorted l₁ = flattenSorted l₂ by rw [h]
  have hstrict : (flattenSorted l₂).Pairwise orderLT := by
    apply pairwiseLT_of_sorted_nodup _ (List.sorted_insertionSort orderLE _)
    have h1 : ((flattenSorted l₂).map (fun kv => defaultedOrder kv.2)).Perm
        ((flattenKVList l₂).map (fun kv => defaultedOrder kv.2)) :=
      (List.perm_insertionSort orderLE _).map _
    rw [orders_map_flattenKVList] at h1
    exact (h1.nodup_iff).mpr hord
  apply sorted_perm_strict_eq _ _ ?_ (List.sorted_insertionSort orderLE _) hstrict
  have h1 : (flattenSorted l₁).Perm (flattenKVList l₁) := List.perm_insertionSort orderLE _
  have h2 : (flattenKVList l₁).Perm (flattenKVList l₂) := by
    unfold flattenKVList
    exact hperm.map _
  have h3 : (flattenKVList l₂).Perm (flattenSorted l₂) :=
    (List.perm_insertionSort orderLE _).symm
  exact (h1.trans h2).trans h3

theorem flatten_deterministic_witness :
    ([("a", Datatableproperty.mk none none none none (some 1)), ("b", { DisplayOrder := some 0 })].Perm
      [("b", Datatableproperty.mk none none none none (some 0)), ("a", { DisplayOrder := some 1 })]) ∧
    (([("b", Datatableproperty.mk none none none none (some 0)),
       ("a", { DisplayOrder := some 1 })].map (fun kv => defaultedOrder kv.2)).Nodup) ∧
    flattenDatatableProperties
      [("a", Datatableproperty.mk none none none none (some 1)), ("b", { DisplayOrder := some 0 })] =
    flattenDatatableProperties
      [("b", Datatableproperty.mk none none none none (some 0)), ("a", { DisplayOrder := some 1 })] :=
  ⟨by decide, by decide,
   flatten_deterministic
     [("a", Datatableproperty.mk none none none none (some 1)), ("b", { DisplayOrder := some 0 })]
     [("b", Datatableproperty.mk none none none none (some 0)), ("a", { DisplayOrder := some 1 })]
     (by decide) (by decide)⟩

/-! ## Default-value conversion (schema-to-payload mapping) -/

theorem buildProp_error_of_parse (c : PropConfig) (d e : String)
    (h1 : c.defVal = some d) (h2 : d ≠ "") (h3 : parseDefault c.varType c.name d = .error e) :
    ∀ i, buildProp i c = .error e := by
  intro i
  simp [buildProp, h1, h2, h3]

theorem buildSdkProps_error (l : List PropConfig) (c : PropConfig) (e : String)
    (hc : c ∈ l) (herr : ∀ i, buildProp i c = .error e) :
    ∀ (i : Int) acc, ∃ err, buildSdkProps l i acc = .error err := by
  induction l with
  | nil => cases hc
  | cons hd tl ih =>
    intro i acc
    rcases List.mem_cons.mp hc with rfl | hmem
    · exact ⟨e, by simp [buildSdkProps, herr i]⟩
    · cases hp : buildProp i hd with
      | error e' => exact ⟨e', by simp [buildSdkProps, hp]⟩
      | ok p =>
        obtain ⟨err, herr2⟩ := ih hmem (i + 1) (mapInsert acc hd.name p)
        exact ⟨err, by simp only [buildSdkProps, hp]; exact herr2⟩

/-- C7: a non-empty default string is converted with `ParseBool` for
`boolean`, `Atoi` for `integer`, `ParseFloat` for `number` and kept unchanged
for `string`; an empty default is omitted from the payload; and when any
property's non-empty default fails to convert, `buildSdkDatatableProperties`
returns only the error — by construction of its result type, no property map
accompanies it. -/
theorem buildProps_default_conversion (i : Int) (n d t : String) (ti : Option String)
    (l : List PropConfig) (c : PropConfig) (e : String) :
    (d ≠ "" → buildProp i { name := n, varType := "boolean", title := ti, defVal := some d } =
      (goParseBool d).map (fun b =>
        { Id := some ("/properties/" ++ n), VarType := some "boolean", Title := ti,
          Default := some (.bool b), DisplayOrder := some i })) ∧
    (d ≠ "" → buildProp i { name := n, varType := "integer", title := ti, defVal := some d } =
      (goAtoi d).map (fun m =>
        { Id := some ("/properties/" ++ n), VarType := some "integer", Title := ti,
          Default := some (.int m), DisplayOrder := some i })) ∧
    (d ≠ "" → buildProp i { name := n, varType := "number", title := ti, defVal := some d } =
      (goParseFloat d).map (fun q =>
        { Id := some ("/properties/" ++ n), VarType := some "number", Title := ti,
          Default := some (.num q), DisplayOrder := some i })) ∧
    (d ≠ "" → buildProp i { name := n, varType := "string", title := ti, defVal := some d } =
      .ok { Id := some ("/properties/" ++ n), VarType := some "string", Title := ti,
            Default := some (.str d), DisplayOrder := some i }) ∧
    (buildProp i { name := n, varType := t, title := ti, defVal := some "" } =
      .ok { Id := some ("/properties/" ++ n), VarType := some t, Title := ti,
            Default := none, DisplayOrder := some i }) ∧
    (c ∈ l → c.defVal = some d → d ≠ "" → parseDefault c.varType c.name d = .error e →
      buildFails l = true) := by
  refine ⟨?_, ?_, ?_, ?_, ?_, ?_⟩
  · intro h
    cases hgb : goParseBool d <;> simp [buildProp, parseDefault, h, hgb, Except.map]
  · intro h
    cases hga : goAtoi d <;> simp [buildProp, parseDefault, h, hga, Except.map]
  · intro h
    cases hgf : goParseFloat d <;> simp [buildProp, parseDefault, h, hgf, Except.map]
  · intro h
    simp [buildProp, parseDefault, h]
  · simp [buildProp]
  · intro hc h1 h2 h3
    obtain ⟨err, hE⟩ :=
      buildSdkProps_error l c e hc (buildProp_error_of_parse c d e h1 h2 h3) 0 []
    simp [buildFails, buildSdkDatatableProperties, hE]

theorem buildProps_default_conversion_witness :
    buildProp 0 { name := "p", varType := "boolean", title := none, defVal := some "true" } =
      .ok { Id := some "/properties/p", VarType := some "boolean", Title := none,
            Default := some (.bool true), DisplayOrder := some 0 } ∧
    buildProp 0 { name := "p", varType := "integer", title := none, defVal := some "7" } =
      .ok { Id := some "/properties/p", VarType := some "integer", Title := none,
            Default := some (.int 7), DisplayOrder := some 0 } ∧
    buildProp 0 { name := "p", varType := "number", title := none, defVal := some "1.5" } =
      .ok { Id := some "/properties/p", VarType := some "number", Title := none,
            Default := some (.num (.finite (mkRat 3 2))), DisplayOrder := some 0 } ∧
    buildProp 0 { name := "p", varType := "string", title := none, defVal := some "x" } =
      .ok { Id := some "/properties/p", VarType := some "string", Title := none,
            Default := some (.str "x"), DisplayOrder := some 0 } ∧
    buildProp 0 { name := "p", varType := "mystery", title := none, defVal := some "" } =
      .ok { Id := some "/properties/p", VarType := some "mystery", Title := none,
            Default := none, DisplayOrder := some 0 } ∧
    buildFails [{ name := "bad", varType := "boolean", title := none, defVal := some "yes" }] =
      true :=
  ⟨by rw [(buildProps_default_conversion 0 "p" "true" "t" none [] { name := "p", varType := "boolean" }
      "e").1 (by decide)]; decide,
   by rw [(buildProps_default_conversion 0 "p" "7" "t" none [] { name := "p", varType := "integer" }
      "e").2.1 (by decide)]; decide,
   by rw [(buildProps_default_conversion 0 "p" "1.5" "t" none [] { name := "p", varType := "number" }
      "e").2.2.1 (by decide)]; decide,
   by rw [(buildProps_default_conversion 0 "p" "x" "t" none [] { name := "p", varType := "string" }
      "e").2.2.2.1 (by decide)]; decide,
   (buildProps_default_conversion 0 "p" "x" "mystery" none [] { name := "p", varType := "string" }
      "e").2.2.2.2.1,
   (buildProps_default_conversion 0 "bad" "yes" "t" none
      [{ name := "bad", varType := "boolean", title := none, defVal := some "yes" }]
      { name := "bad", varType := "boolean", title := none, defVal := some "yes" }
      "strconv.ParseBool: parsing \"yes\": invalid syntax").2.2.2.2.2
     (by decide) (by decide) (by decide) (by decide)⟩

/-! ## The build/flatten round trip -/

theorem canonical_buildProp (c : PropConfig) (hc : canonicalDefault c = true) (i : Int) :
    buildProp i c = .ok (mkProp i c) := by
  unfold canonicalDefault at hc
  cases hd : c.defVal with
  | none => simp [buildProp, mkProp, parsedDefault, hd]
  | some d =>
    rw [hd] at hc
    simp only [Bool.and_eq_true, Bool.not_eq_eq_eq_not, Bool.not_true, decide_eq_false_iff_not] at hc
    obtain ⟨hne, hm⟩ := hc
    cases hp : parseDefault c.varType c.name d with
    | error e => rw [hp] at hm; simp at hm
    | ok v => simp [buildProp, mkProp, parsedDefault, hd, hne, hp, Except.toOption]

theorem canonical_render (c : PropConfig) (hc : canonicalDefault c = true) :
    (parsedDefault c).map interfaceToString = c.defVal := by
  unfold canonicalDefault at hc
  cases hd : c.defVal with
  | none => simp [parsedDefault, hd]
  | some d =>
    rw [hd] at hc
    simp only [Bool.and_eq_true, Bool.not_eq_eq_eq_not, Bool.not_true, decide_eq_false_iff_not] at hc
    obtain ⟨hne, hm⟩ := hc
    cases hp : parseDefault c.varType c.name d with
    | error e => rw [hp] at hm; simp at hm
    | ok v =>
      rw [hp] at hm
      simp only [beq_iff_eq] at hm
      simp [parsedDefault, hd, hne, hp, hm, Except.toOption]

theorem mapInsert_append {α : Type} (m : List (String × α)) (k : String) (v : α)
    (h : k ∉ m.map Prod.fst) : mapInsert m k v = m ++ [(k, v)] := by
  induction m with
  | nil => rfl
  | cons b t ih =>
    simp only [List.map_cons, List.mem_cons, not_or] at h
    obtain ⟨hk, hmem⟩ := h
    have hbk : ¬b.1 = k := fun hbk => hk hbk.symm
    simp [mapInsert, hbk, ih hmem]

theorem buildSdkProps_ok (cfg : List PropConfig) :
    ∀ (i : Int) (acc : List (String × Datatableproperty)),
      (∀ c ∈ cfg, canonicalDefault c = true) →
      (acc.map Prod.fst ++ cfg.map PropConfig.name).Nodup →
      buildSdkProps cfg i acc = .ok (acc ++ builtList cfg i) := by
  induction cfg with
  | nil => intro i acc _ _; simp [buildSdkProps, builtList]
  | cons c rest ih =>
    intro i acc hcanon hnodup
    have hhead := canonical_buildProp c (hcanon c (List.mem_cons_self c rest)) i
    have hknotin : c.name ∉ acc.map Prod.fst := by
      intro hmem
      rw [List.nodup_append] at hnodup
      exact hnodup.2.2 hmem (List.mem_cons_self _ _)
    have hnodup' : ((acc ++ [(c.name, mkProp i c)]).map Prod.fst ++
        rest.map PropConfig.name).Nodup := by
      simp only [List.map_cons] at hnodup
      rw [List.append_cons] at hnodup
      simpa using hnodup
    have step : buildSdkProps (c :: rest) i acc =
        buildSdkProps rest (i + 1) (mapInsert acc c.name (mkProp i c)) := by
      rw [buildSdkProps, hhead]
    rw [step, mapInsert_append acc c.name (mkProp i c) hknotin,
      ih (i + 1) (acc ++ [(c.name, mkProp i c)])
        (fun c' h => hcanon c' (List.mem_cons_of_mem _ h)) hnodup']
    simp [builtList]

theorem builtList_order_ge (cfg : List PropConfig) :
    ∀ (i : Int) (kv : String × Datatableproperty), kv ∈ builtList cfg i →
      i ≤ defaultedOrder kv.2 := by
  induction cfg with
  | nil => intro i kv h; simp [builtList] at h
  | cons c rest ih =>
    intro i kv h
    rw [builtList] at h
    rcases List.mem_cons.mp h with rfl | hm
    · simp [mkProp, defaultedOrder]
    · have := ih (i + 1) kv hm
      omega

theorem builtList_strict (cfg : List PropConfig) :
    ∀ i : Int, (builtList cfg i).Pairwise orderLT := by
  induction cfg with
  | nil => intro i; simp [builtList]
  | cons c rest ih =>
    intro i
    rw [builtList]
    refine List.Pairwise.cons ?_ (ih (i + 1))
    intro kv hkv
    have h1 := builtList_order_ge rest (i + 1) kv hkv
    show defaultedOrder (mkProp i c) < defaultedOrder kv.2
    have h2 : defaultedOrder (mkProp i c) = i := by simp [mkProp, defaultedOrder]
    omega

theorem builtList_DO_some (cfg : List PropConfig) :
    ∀ (i : Int) (kv : String × Datatableproperty), kv ∈ builtList cfg i →
      ∃ o, kv.2.DisplayOrder = some o := by
  induction cfg with
  | nil => intro i kv h; simp [builtList] at h
  | cons c rest ih =>
    intro i kv h
    rw [builtList] at h
    rcases List.mem_cons.mp h with rfl | hm
    · exact ⟨i, rfl⟩
    · exact ih (i + 1) kv hm

theorem flattenKVList_of_some (l : List (String × Datatableproperty))
    (h : ∀ kv ∈ l, ∃ o, kv.2.DisplayOrder = some o) : flattenKVList l = l := by
  induction l with
  | nil => rfl
  | cons b t ih =>
    obtain ⟨o, ho⟩ := h b (List.mem_cons_self b t)
    obtain ⟨k, pId, pVT, pTi, pDe, pDO⟩ := b
    simp only at ho
    subst ho
    simp only [flattenKVList, List.map_cons, defaultedOrder, Option.getD_some]
    exact congrArg _ (ih (fun kv hkv => h kv (List.mem_cons_of_mem _ hkv)))

theorem builtList_render (cfg : List PropConfig) :
    (∀ c ∈ cfg, canonicalDefault c = true) →
    ∀ i : Int, (builtList cfg i).map renderKV = renderConfig cfg := by
  induction cfg with
  | nil => intro _ i; rfl
  | cons c rest ih =>
    intro hcanon i
    have hc := canonical_render c (hcanon c (List.mem_cons_self c rest))
    simp only [builtList, List.map_cons, renderConfig] at *
    refine congrArg₂ _ ?_ (ih (fun c' h => hcanon c' (List.mem_cons_of_mem _ h)) (i + 1))
    simp [renderKV, mkProp, hc]

/-- C1 counterexample: three configurations that are valid under the resource
schema but on which flattening the built property map does not recover the
input list: an empty `string` default is dropped rather than recovered, two
properties sharing a name collapse to one map entry, and the boolean default
`TRUE` (accepted by `ParseBool`) comes back as its canonical display `true`. -/
theorem buildFlatten_roundtrip_cex :
    flattenOfBuild [{ name := "a", varType := "string", title := none, defVal := some "" }] ≠
      some (renderConfig
        [{ name := "a", varType := "string", title := none, defVal := some "" }]) ∧
    flattenOfBuild [{ name := "x", varType := "string" }, { name := "x", varType := "integer" }] ≠
      some (renderConfig
        [{ name := "x", varType := "string" }, { name := "x", varType := "integer" }]) ∧
    flattenOfBuild [{ name := "b", varType := "boolean", defVal := some "TRUE" }] ≠
      some (renderConfig [{ name := "b", varType := "boolean", defVal := some "TRUE" }]) :=
  ⟨by decide, by decide, by decide⟩

/-- C1 (amended): for a properties list valid under the resource schema whose
names are pairwise distinct and whose defaults, when present, are non-empty
and in canonical form (displaying the converted value gives back the
configured string), flattening the built SDK property map — under any map
iteration order — recovers the original list: same entries (name, type,
title, default) in the same order. -/
theorem buildFlatten_roundtrip (cfg : List PropConfig)
    (hnodup : (cfg.map PropConfig.name).Nodup)
    (hty : ∀ c ∈ cfg, c.varType = "boolean" ∨ c.varType = "string" ∨
      c.varType = "integer" ∨ c.varType = "number")
    (hcanon : ∀ c ∈ cfg, canonicalDefault c = true) :
    FlattenRecoversConfig cfg := by
  refine ⟨builtList cfg 0, ?_, ?_⟩
  · have hprops := buildSdkProps_ok cfg 0 [] hcanon (by simpa using hnodup)
    simp [buildSdkDatatableProperties, hprops]
  · intro e he
    unfold flattenDatatableProperties flattenSorted
    have hb : flattenKVList (builtList cfg 0) = builtList cfg 0 :=
      flattenKVList_of_some _ (builtList_DO_some cfg 0)
    have hsorteq : List.insertionSort orderLE (flattenKVList e) = builtList cfg 0 := by
      apply sorted_perm_strict_eq _ _ ?_ (List.sorted_insertionSort orderLE _)
        (builtList_strict cfg 0)
      have h1 : (List.insertionSort orderLE (flattenKVList e)).Perm (flattenKVList e) :=
        List.perm_insertionSort orderLE _
      have h2 : (flattenKVList e).Perm (flattenKVList (builtList cfg 0)) := by
        unfold flattenKVList
        exact he.map _
      rw [hb] at h2
      exact h1.trans h2
    rw [hsorteq]
    exact builtList_render cfg hcanon 0

theorem buildFlatten_roundtrip_witness : FlattenRecoversConfig exampleRoundtripCfg :=
  buildFlatten_roundtrip exampleRoundtripCfg (by decide) (by decide) (by decide)

end GenesysCloud
